import Mathlib

/-!
Verification of the Auth/DB core of the user-authentication service
(`0x03-user_authentication_service/auth.py` and `db.py`).

The embedding is shallow and executable:
* bcrypt's salted hashing is modelled ideally: a hash value is an opaque
  pair of the per-call salt and the hashed plaintext, `checkpw` verifies by
  comparing the stored plaintext component (bcrypt's documented behaviour:
  a hash verifies exactly against the password it was produced from);
* `uuid4()` and `bcrypt.gensalt()` draw from a single freshness counter
  (`nonce`) threaded through the `Auth` state, one draw per call, so each
  generated value is distinct from all earlier ones;
* the SQLAlchemy session is a list of `User` records plus the
  autoincrement counter for the primary key; `query(...).first()` is
  `List.find?` in insertion (rowid) order; committing a mutation of the
  ORM object found by a query replaces the first matching record in place;
* Python exceptions become an `Err` sum carried in `Except`; operations
  that mutate return the (possibly unchanged) state alongside the result,
  so "raised before any write" is visible in the theorems.
-/

/-- Ideal model of a bcrypt salted hash: the salt drawn at hashing time
paired with the hashed plaintext. Opaque to every consumer except
`checkpw`. -/
structure HashedPW where
  salt : Nat
  pw : String
deriving DecidableEq, Repr

/-- Model of `bcrypt.hashpw(password, salt)`. -/
def hashpw (password : String) (salt : Nat) : HashedPW := ⟨salt, password⟩

/-- Model of `bcrypt.checkpw(password, hash)`: verifies exactly when the
hash was produced from this plaintext. -/
def checkpw (password : String) (h : HashedPW) : Bool := h.pw == password

/-- The `users` table row from `0-user.py`: integer primary key, non-null
email and hashed password, nullable session id and reset token. -/
structure User where
  id : Nat
  email : String
  hashed_password : HashedPW
  session_id : Option String
  reset_token : Option String
deriving DecidableEq, Repr

/-- A value bound to a column name in a `**kwargs` criteria or update
mapping. -/
inductive FieldVal where
  | vNat (n : Nat)
  | vStr (s : String)
  | vHash (h : HashedPW)
  | vOptStr (o : Option String)
deriving DecidableEq, Repr

/-- The Python exception classes that cross the DB/Auth boundary. -/
inductive Err where
  | invalidRequestError (msg : String)
  | noResultFound (msg : String)
  | valueError (msg : String)
deriving DecidableEq, Repr

/-- `User.__table__.columns.keys()`. -/
def column_names : List String :=
  ["id", "email", "hashed_password", "session_id", "reset_token"]

/-- Whether user `u` satisfies one `column = value` criterion, as
`filter_by` compares it. A name/value pair whose value type cannot occur
in that column matches no row. -/
def fieldMatches (u : User) : String × FieldVal → Bool
  | ("id", .vNat n) => u.id == n
  | ("email", .vStr s) => u.email == s
  | ("hashed_password", .vHash h) => u.hashed_password == h
  | ("session_id", .vStr s) => u.session_id == some s
  | ("session_id", .vOptStr o) => u.session_id == o
  | ("reset_token", .vStr s) => u.reset_token == some s
  | ("reset_token", .vOptStr o) => u.reset_token == o
  | _ => false

/-- One `setattr(user, key, value)` from `DB.update_user`. -/
def applyField (u : User) : String × FieldVal → User
  | ("id", .vNat n) => { u with id := n }
  | ("email", .vStr s) => { u with email := s }
  | ("hashed_password", .vHash h) => { u with hashed_password := h }
  | ("session_id", .vStr s) => { u with session_id := some s }
  | ("session_id", .vOptStr o) => { u with session_id := o }
  | ("reset_token", .vStr s) => { u with reset_token := some s }
  | ("reset_token", .vOptStr o) => { u with reset_token := o }
  | _ => u

/-- Replace the first element satisfying `q` by its image under `f`
(mutating the single ORM object returned by `.first()`). -/
def replaceFirst (q : α → Bool) (f : α → α) : List α → List α
  | [] => []
  | v :: rest => if q v then f v :: rest else v :: replaceFirst q f rest

/-- The storage state behind `DB`: the committed rows in rowid order and
the next autoincrement primary key. -/
structure DBState where
  users : List User
  nextId : Nat
deriving DecidableEq, Repr

/-- `DB.add_user`: persists a new row with a store-assigned id and both
optional columns null, and returns the persisted entity. -/
def add_user (db : DBState) (email : String) (hashed_password : HashedPW) :
    User × DBState :=
  let user : User := ⟨db.nextId, email, hashed_password, none, none⟩
  (user, ⟨db.users ++ [user], db.nextId + 1⟩)

/-- `DB.find_user_by`: rejects an empty criteria mapping, then any key
that is not a column name (first offender, in mapping order), then
returns the first matching row or `NoResultFound`. Read-only. -/
def find_user_by (db : DBState) (kwargs : List (String × FieldVal)) :
    Except Err User :=
  if kwargs.isEmpty then
    .error (.invalidRequestError "No search criteria specified")
  else
    match kwargs.find? (fun kv => !(column_names.contains kv.1)) with
    | some kv =>
        .error (.invalidRequestError (kv.1 ++ "is not a valid search criterion"))
    | none =>
        match db.users.find? (fun u => kwargs.all (fieldMatches u)) with
        | some u => .ok u
        | none =>
            .error (.noResultFound "No user found that matches the given criteria")

/-- `DB.update_user`: loads the row by id (propagating `NoResultFound`),
validates every key before any assignment (`ValueError` on the first
unknown key), then applies all assignments to that row and commits. On
any error the store is returned unchanged, exactly as the Python raises
before the first `setattr`. -/
def update_user (db : DBState) (user_id : Nat)
    (kwargs : List (String × FieldVal)) : Except Err Unit × DBState :=
  match find_user_by db [("id", .vNat user_id)] with
  | .error e => (.error e, db)
  | .ok _ =>
    match kwargs.find? (fun kv => !(column_names.contains kv.1)) with
    | some kv =>
        (.error (.valueError (kv.1 ++ " is not a valid attribute name")), db)
    | none =>
        (.ok (),
         { db with
             users := replaceFirst (fun v => v.id == user_id)
               (fun v => kwargs.foldl applyField v) db.users })

/-- Model of `_generate_uuid` drawing the `n`-th value of the freshness
stream. -/
def _generate_uuid (n : Nat) : String := "uuid-" ++ toString n

/-- The `Auth` service state: the database plus the freshness counter
feeding `uuid4` and `bcrypt.gensalt`. -/
structure AuthState where
  db : DBState
  nonce : Nat
deriving DecidableEq, Repr

/-- Model of `_hash_password`: salted hash with a salt drawn from the
freshness stream at position `salt`. -/
def _hash_password (password : String) (salt : Nat) : HashedPW :=
  hashpw password salt

/-- `Auth.register_user`: `ValueError` if a user with this email is
found; otherwise hash the password with a fresh salt and persist a new
user. -/
def register_user (st : AuthState) (email password : String) :
    Except Err User × AuthState :=
  match find_user_by st.db [("email", .vStr email)] with
  | .error (.noResultFound _) =>
      match add_user st.db email (_hash_password password st.nonce) with
      | (user, db2) => (.ok user, ⟨db2, st.nonce + 1⟩)
  | .error e => (.error e, st)
  | .ok _ => (.error (.valueError ("User " ++ email ++ " already exists")), st)

/-- `Auth.valid_login`: false (not an error) when the email is unknown,
otherwise `bcrypt.checkpw` against the stored hash. Read-only. -/
def valid_login (st : AuthState) (email password : String) :
    Except Err Bool :=
  match find_user_by st.db [("email", .vStr email)] with
  | .error (.noResultFound _) => .ok false
  | .error e => .error e
  | .ok user => .ok (checkpw password user.hashed_password)

/-- `Auth.create_session`: `none` when the email is unknown; otherwise a
fresh session id is generated, persisted on the user row, and returned. -/
def create_session (st : AuthState) (email : String) :
    Except Err (Option String) × AuthState :=
  match find_user_by st.db [("email", .vStr email)] with
  | .error (.noResultFound _) => (.ok none, st)
  | .error e => (.error e, st)
  | .ok user =>
      match update_user st.db user.id
          [("session_id", .vStr (_generate_uuid st.nonce))] with
      | (.error e, db2) => (.error e, ⟨db2, st.nonce + 1⟩)
      | (.ok _, db2) => (.ok (some (_generate_uuid st.nonce)), ⟨db2, st.nonce + 1⟩)

/-- `Auth.get_user_from_session_id`: `none` for an absent session id or
when no row holds it. Read-only. -/
def get_user_from_session_id (st : AuthState) (session_id : Option String) :
    Except Err (Option User) :=
  match session_id with
  | none => .ok none
  | some sid =>
      match find_user_by st.db [("session_id", .vStr sid)] with
      | .error (.noResultFound _) => .ok none
      | .error e => .error e
      | .ok user => .ok (some user)

/-- `Auth.destroy_session`: silently returns when the user id is unknown,
otherwise clears the session id column. -/
def destroy_session (st : AuthState) (user_id : Nat) :
    Except Err Unit × AuthState :=
  match find_user_by st.db [("id", .vNat user_id)] with
  | .error (.noResultFound _) => (.ok (), st)
  | .error e => (.error e, st)
  | .ok user =>
      match update_user st.db user.id [("session_id", .vOptStr none)] with
      | (.error e, db2) => (.error e, ⟨db2, st.nonce⟩)
      | (.ok _, db2) => (.ok (), ⟨db2, st.nonce⟩)


/-- `Auth.get_reset_password_token`: bare `ValueError` when the email is
unknown; otherwise a fresh token is generated, persisted, and returned. -/
def get_reset_password_token (st : AuthState) (email : String) :
    Except Err String × AuthState :=
  match find_user_by st.db [("email", .vStr email)] with
  | .error (.noResultFound _) => (.error (.valueError ""), st)
  | .error e => (.error e, st)
  | .ok user =>
      match update_user st.db user.id
          [("reset_token", .vStr (_generate_uuid st.nonce))] with
      | (.error e, db2) => (.error e, ⟨db2, st.nonce + 1⟩)
      | (.ok _, db2) => (.ok (_generate_uuid st.nonce), ⟨db2, st.nonce + 1⟩)

/-- `Auth.update_password`: returns silently when either argument is
`None`; bare `ValueError` when no row holds the token; otherwise one
`update_user` call replaces the hash (freshly salted) and nulls the
token together. -/
def update_password (st : AuthState) (reset_token password : Option String) :
    Except Err Unit × AuthState :=
  match reset_token, password with
  | none, _ => (.ok (), st)
  | _, none => (.ok (), st)
  | some tok, some pw =>
      match find_user_by st.db [("reset_token", .vStr tok)] with
      | .error (.noResultFound _) => (.error (.valueError ""), st)
      | .error e => (.error e, st)
      | .ok user =>
          match update_user st.db user.id
              [("hashed_password", .vHash (_hash_password pw st.nonce)),
               ("reset_token", .vOptStr none)] with
          | (.error e, db2) => (.error e, ⟨db2, st.nonce + 1⟩)
          | (.ok _, db2) => (.ok (), ⟨db2, st.nonce + 1⟩)

/-- The state of a freshly constructed service: empty table, primary keys
from 1, freshness stream from 0. -/
def authInit : AuthState := ⟨⟨[], 1⟩, 0⟩

/-- A one-user demonstration record: registered with password "pw1"
(salt 0) and currently holding reset token "tok". -/
def demoUser : User := ⟨1, "a@x.com", hashpw "pw1" 0, none, some "tok"⟩

/-- A demonstration service state holding exactly `demoUser`. -/
def demoSt : AuthState := ⟨⟨[demoUser], 2⟩, 1⟩

/-! ### List helpers for querying and in-place update -/

theorem find?_prefix_false {α : Type} {p : α → Bool} {pre post : List α}
    {u : α} (hpre : ∀ v ∈ pre, p v = false) (hu : p u = true) :
    (pre ++ u :: post).find? p = some u := by
  induction pre with
  | nil => simp [List.find?, hu]
  | cons v rest ih =>
      have hv : p v = false := hpre v (List.mem_cons_self v rest)
      simp only [List.cons_append, List.find?, hv]
      exact ih (fun w hw => hpre w (List.mem_cons_of_mem v hw))

theorem find?_all_false {α : Type} {p : α → Bool} {l : List α}
    (h : ∀ v ∈ l, p v = false) : l.find? p = none := by
  induction l with
  | nil => rfl
  | cons v rest ih =>
      have hv : p v = false := h v (List.mem_cons_self v rest)
      simp only [List.find?, hv]
      exact ih (fun w hw => h w (List.mem_cons_of_mem v hw))

theorem replaceFirst_prefix_false {α : Type} {q : α → Bool} {f : α → α}
    {pre post : List α} {u : α}
    (hpre : ∀ v ∈ pre, q v = false) (hu : q u = true) :
    replaceFirst q f (pre ++ u :: post) = pre ++ f u :: post := by
  induction pre with
  | nil => simp [replaceFirst, hu]
  | cons v rest ih =>
      have hv : q v = false := hpre v (List.mem_cons_self v rest)
      simp only [List.cons_append, replaceFirst, hv, Bool.false_eq_true,
        if_false]
      exact congrArg (v :: ·) (ih (fun w hw => hpre w (List.mem_cons_of_mem v hw)))

/-! ### Reductions of `find_user_by` on the single-criterion queries the
service issues, and of `update_user` on a decomposed store -/

theorem find_user_by_email_eq (db : DBState) (e : String) :
    find_user_by db [("email", .vStr e)] =
      match db.users.find? (fun v => v.email == e) with
      | some u => .ok u
      | none => .error (.noResultFound "No user found that matches the given criteria") := by
  unfold find_user_by
  have h2 : (([("email", FieldVal.vStr e)] : List (String × FieldVal)).find?
      (fun kv => !(column_names.contains kv.1))) = none := rfl
  rw [h2]
  have h3 : (fun u => ([(("email" : String), FieldVal.vStr e)]).all (fieldMatches u))
      = (fun v : User => v.email == e) := by
    funext v
    simp [List.all, fieldMatches]
  simp only [List.isEmpty_cons, Bool.false_eq_true, if_false, h3]

theorem find_user_by_id_eq (db : DBState) (i : Nat) :
    find_user_by db [("id", .vNat i)] =
      match db.users.find? (fun v => v.id == i) with
      | some u => .ok u
      | none => .error (.noResultFound "No user found that matches the given criteria") := by
  unfold find_user_by
  have h2 : (([("id", FieldVal.vNat i)] : List (String × FieldVal)).find?
      (fun kv => !(column_names.contains kv.1))) = none := rfl
  rw [h2]
  have h3 : (fun u => ([(("id" : String), FieldVal.vNat i)]).all (fieldMatches u))
      = (fun v : User => v.id == i) := by
    funext v
    simp [List.all, fieldMatches]
  simp only [List.isEmpty_cons, Bool.false_eq_true, if_false, h3]

theorem find_user_by_session_eq (db : DBState) (s : String) :
    find_user_by db [("session_id", .vStr s)] =
      match db.users.find? (fun v => v.session_id == some s) with
      | some u => .ok u
      | none => .error (.noResultFound "No user found that matches the given criteria") := by
  unfold find_user_by
  have h2 : (([("session_id", FieldVal.vStr s)] : List (String × FieldVal)).find?
      (fun kv => !(column_names.contains kv.1))) = none := rfl
  rw [h2]
  have h3 : (fun u => ([(("session_id" : String), FieldVal.vStr s)]).all (fieldMatches u))
      = (fun v : User => v.session_id == some s) := by
    funext v
    simp [List.all, fieldMatches]
  simp only [List.isEmpty_cons, Bool.false_eq_true, if_false, h3]

theorem find_user_by_reset_eq (db : DBState) (s : String) :
    find_user_by db [("reset_token", .vStr s)] =
      match db.users.find? (fun v => v.reset_token == some s) with
      | some u => .ok u
      | none => .error (.noResultFound "No user found that matches the given criteria") := by
  unfold find_user_by
  have h2 : (([("reset_token", FieldVal.vStr s)] : List (String × FieldVal)).find?
      (fun kv => !(column_names.contains kv.1))) = none := rfl
  rw [h2]
  have h3 : (fun u => ([(("reset_token" : String), FieldVal.vStr s)]).all (fieldMatches u))
      = (fun v : User => v.reset_token == some s) := by
    funext v
    simp [List.all, fieldMatches]
  simp only [List.isEmpty_cons, Bool.false_eq_true, if_false, h3]

theorem find_user_by_email_found {db : DBState} (pre post : List User)
    (u : User) {e : String} (hsplit : db.users = pre ++ u :: post)
    (hpre : ∀ v ∈ pre, v.email ≠ e) (hu : u.email = e) :
    find_user_by db [("email", .vStr e)] = .ok u := by
  rw [find_user_by_email_eq, hsplit,
    find?_prefix_false (fun v hv => by simp [hpre v hv]) (by simp [hu])]

theorem find_user_by_email_none {db : DBState} {e : String}
    (h : ∀ v ∈ db.users, v.email ≠ e) :
    find_user_by db [("email", .vStr e)] =
      .error (.noResultFound "No user found that matches the given criteria") := by
  rw [find_user_by_email_eq, find?_all_false (fun v hv => by simp [h v hv])]

theorem find_user_by_id_found {db : DBState} (pre post : List User)
    (u : User) {i : Nat} (hsplit : db.users = pre ++ u :: post)
    (hpre : ∀ v ∈ pre, v.id ≠ i) (hu : u.id = i) :
    find_user_by db [("id", .vNat i)] = .ok u := by
  rw [find_user_by_id_eq, hsplit,
    find?_prefix_false (fun v hv => by simp [hpre v hv]) (by simp [hu])]

theorem find_user_by_id_none {db : DBState} {i : Nat}
    (h : ∀ v ∈ db.users, v.id ≠ i) :
    find_user_by db [("id", .vNat i)] =
      .error (.noResultFound "No user found that matches the given criteria") := by
  rw [find_user_by_id_eq, find?_all_false (fun v hv => by simp [h v hv])]

theorem find_user_by_session_found {db : DBState} (pre post : List User)
    (u : User) {s : String} (hsplit : db.users = pre ++ u :: post)
    (hpre : ∀ v ∈ pre, v.session_id ≠ some s) (hu : u.session_id = some s) :
    find_user_by db [("session_id", .vStr s)] = .ok u := by
  rw [find_user_by_session_eq, hsplit,
    find?_prefix_false (fun v hv => by simp [hpre v hv]) (by simp [hu])]

theorem find_user_by_session_none {db : DBState} {s : String}
    (h : ∀ v ∈ db.users, v.session_id ≠ some s) :
    find_user_by db [("session_id", .vStr s)] =
      .error (.noResultFound "No user found that matches the given criteria") := by
  rw [find_user_by_session_eq, find?_all_false (fun v hv => by simp [h v hv])]

theorem find_user_by_reset_found {db : DBState} (pre post : List User)
    (u : User) {s : String} (hsplit : db.users = pre ++ u :: post)
    (hpre : ∀ v ∈ pre, v.reset_token ≠ some s) (hu : u.reset_token = some s) :
    find_user_by db [("reset_token", .vStr s)] = .ok u := by
  rw [find_user_by_reset_eq, hsplit,
    find?_prefix_false (fun v hv => by simp [hpre v hv]) (by simp [hu])]

theorem find_user_by_reset_none {db : DBState} {s : String}
    (h : ∀ v ∈ db.users, v.reset_token ≠ some s) :
    find_user_by db [("reset_token", .vStr s)] =
      .error (.noResultFound "No user found that matches the given criteria") := by
  rw [find_user_by_reset_eq, find?_all_false (fun v hv => by simp [h v hv])]

theorem update_user_split {db : DBState} (pre post : List User) (u : User)
    {i : Nat} (kw : List (String × FieldVal))
    (hsplit : db.users = pre ++ u :: post)
    (hpre : ∀ v ∈ pre, v.id ≠ i) (hu : u.id = i)
    (hkw : kw.find? (fun kv => !(column_names.contains kv.1)) = none) :
    update_user db i kw =
      (.ok (), ⟨pre ++ kw.foldl applyField u :: post, db.nextId⟩) := by
  unfold update_user
  rw [find_user_by_id_found pre post u hsplit hpre hu, hkw]
  have hrep : replaceFirst (fun v => v.id == i)
      (fun v => kw.foldl applyField v) db.users
      = pre ++ kw.foldl applyField u :: post := by
    rw [hsplit]
    exact replaceFirst_prefix_false (fun v hv => by simp [hpre v hv]) (by simp [hu])
  rw [hrep]

/-- Claim C1: on a store with no user under this email, registration followed
immediately by a login check with the same plaintext succeeds: the salted
hash produced at registration verifies against that plaintext. -/
theorem register_then_valid_login (st : AuthState) (email pw : String)
    (hno : ∀ v ∈ st.db.users, v.email ≠ email) :
    ∃ u st₁, register_user st email pw = (.ok u, st₁) ∧
      valid_login st₁ email pw = .ok true := by
  refine ⟨⟨st.db.nextId, email, hashpw pw st.nonce, none, none⟩,
    ⟨⟨st.db.users ++ [⟨st.db.nextId, email, hashpw pw st.nonce, none, none⟩],
      st.db.nextId + 1⟩, st.nonce + 1⟩, ?_, ?_⟩
  · unfold register_user
    rw [find_user_by_email_none hno]
    rfl
  · unfold valid_login
    rw [find_user_by_email_found st.db.users []
      ⟨st.db.nextId, email, hashpw pw st.nonce, none, none⟩ rfl hno rfl]
    simp [checkpw, hashpw]

/-- Claim C3: registering an email already present in the store fails with the
duplicate-user `ValueError` and leaves the whole store, including the
record from the first registration, unchanged. -/
theorem register_duplicate_fails (st : AuthState) (email pw : String)
    (hex : ∃ v ∈ st.db.users, v.email = email) :
    register_user st email pw =
      (.error (.valueError ("User " ++ email ++ " already exists")), st) := by
  unfold register_user
  rw [find_user_by_email_eq]
  cases h : st.db.users.find? (fun v => v.email == email) with
  | some u => rfl
  | none =>
      exfalso
      obtain ⟨v, hv, hve⟩ := hex
      rw [List.find?_eq_none] at h
      exact h v hv (by simp [hve])

/-- Claim C9: the login check is total (never an error): it is false when no
user holds the email, and after a registration it is true exactly on the
password registered, false on every other password. -/
theorem valid_login_total_and_exact (st : AuthState) (email pw2 : String) :
    (∃ b, valid_login st email pw2 = .ok b) ∧
    ((∀ v ∈ st.db.users, v.email ≠ email) →
      valid_login st email pw2 = .ok false) ∧
    (∀ pw u st₁, (∀ v ∈ st.db.users, v.email ≠ email) →
      register_user st email pw = (.ok u, st₁) →
      valid_login st₁ email pw2 = .ok (pw == pw2)) := by
  refine ⟨?_, ?_, ?_⟩
  · unfold valid_login
    rw [find_user_by_email_eq]
    cases h : st.db.users.find? (fun v => v.email == email) with
    | none => exact ⟨false, rfl⟩
    | some u => exact ⟨checkpw pw2 u.hashed_password, rfl⟩
  · intro h
    unfold valid_login
    rw [find_user_by_email_none h]
  · intro pw u st₁ hno hreg
    have hreg2 : register_user st email pw =
        (.ok (⟨st.db.nextId, email, hashpw pw st.nonce, none, none⟩ : User),
         (⟨⟨st.db.users ++
             [⟨st.db.nextId, email, hashpw pw st.nonce, none, none⟩],
            st.db.nextId + 1⟩, st.nonce + 1⟩ : AuthState)) := by
      unfold register_user
      rw [find_user_by_email_none hno]
      rfl
    have hpair := hreg.symm.trans hreg2
    simp only [Prod.mk.injEq] at hpair
    rw [hpair.2]
    unfold valid_login
    rw [find_user_by_email_found st.db.users []
      ⟨st.db.nextId, email, hashpw pw st.nonce, none, none⟩ rfl hno rfl]
    simp [checkpw, hashpw, BEq.comm]

/-- Claim C6: a lookup with an empty criteria mapping always fails with the
`InvalidRequestError` for missing criteria, and a lookup containing any
unrecognized field name always fails with the `InvalidRequestError` that
names the offending (first unrecognized) criterion. -/
theorem find_user_by_rejects_bad_criteria (db : DBState)
    (kw : List (String × FieldVal)) (k : String) (fv : FieldVal) :
    find_user_by db [] =
      .error (.invalidRequestError "No search criteria specified") ∧
    ((k, fv) ∈ kw → column_names.contains k = false →
      ∃ k2, column_names.contains k2 = false ∧
        find_user_by db kw =
          .error (.invalidRequestError (k2 ++ "is not a valid search criterion"))) := by
  constructor
  · rfl
  · intro hmem hk
    have hne : kw.isEmpty = false := by
      cases kw with
      | nil => cases hmem
      | cons a l => rfl
    have hs : (kw.find? (fun kv => !(column_names.contains kv.1))).isSome := by
      rw [List.find?_isSome]
      refine ⟨(k, fv), hmem, ?_⟩
      show (!(column_names.contains k)) = true
      rw [hk]
      rfl
    obtain ⟨kv, hkv⟩ := Option.isSome_iff_exists.mp hs
    have hp0 := List.find?_some hkv
    have hp2 : (!(column_names.contains kv.1)) = true := hp0
    have hkv1 : column_names.contains kv.1 = false := by
      cases hcc : column_names.contains kv.1
      · rfl
      · rw [hcc] at hp2
        exact absurd hp2 (by decide)
    refine ⟨kv.1, hkv1, ?_⟩
    unfold find_user_by
    rw [hne, hkv]
    simp

/-- Claim C5 counterexample: with an empty-string (present but empty) reset
token the call is not a no-op: it raises the bare `ValueError` instead of
returning without error. -/
theorem update_password_empty_token_errors :
    update_password authInit (some "") (some "x") =
      (.error (.valueError ""), authInit) ∧
    (Except.error (Err.valueError "") : Except Err Unit) ≠ .ok () := by
  exact ⟨rfl, fun h => Except.noConfusion h⟩

/-- Claim C5 amended: the call is a no-op only when either argument is absent
(`None`); whenever both arguments are present — an empty string counts
as present — and no user holds exactly that reset token, it fails with
the bare `ValueError` and leaves the state unchanged. -/
theorem update_password_guard (st : AuthState) (t pw : String)
    (p : Option String) :
    update_password st none p = (.ok (), st) ∧
    update_password st (some t) none = (.ok (), st) ∧
    ((∀ v ∈ st.db.users, v.reset_token ≠ some t) →
      update_password st (some t) (some pw) =
        (.error (.valueError ""), st)) := by
  refine ⟨?_, ?_, fun h => ?_⟩
  · cases p <;> rfl
  · rfl
  · have hred : update_password st (some t) (some pw) =
        (match find_user_by st.db [("reset_token", FieldVal.vStr t)] with
         | .error (.noResultFound _) => (.error (.valueError ""), st)
         | .error e => (.error e, st)
         | .ok user =>
             match update_user st.db user.id
                 [("hashed_password", .vHash (_hash_password pw st.nonce)),
                  ("reset_token", .vOptStr none)] with
             | (.error e, db2) => (.error e, ⟨db2, st.nonce + 1⟩)
             | (.ok _, db2) => (.ok (), ⟨db2, st.nonce + 1⟩)) := rfl
    rw [hred, find_user_by_reset_none h]

theorem replaceFirst_id_of {α : Type} {q : α → Bool} {f : α → α}
    (hf : ∀ v, f v = v) (l : List α) : replaceFirst q f l = l := by
  induction l with
  | nil => rfl
  | cons v rest ih =>
      by_cases hq : q v = true
      · simp [replaceFirst, hq, hf v]
      · simp [replaceFirst, hq, ih]

/-- Claim C10: updating an existing record with an empty field mapping raises
no error (in contrast with the empty-criteria lookup) and leaves that
record and every other record exactly as they were. -/
theorem update_user_empty_fields_noop (db : DBState) (i : Nat)
    (hex : ∃ v ∈ db.users, v.id = i) :
    update_user db i [] = (.ok (), db) ∧
    find_user_by db [] =
      .error (.invalidRequestError "No search criteria specified") := by
  refine ⟨?_, rfl⟩
  have hs : (db.users.find? (fun v => v.id == i)).isSome := by
    rw [List.find?_isSome]
    obtain ⟨v, hv, hvi⟩ := hex
    exact ⟨v, hv, by simp [hvi]⟩
  obtain ⟨u, hu⟩ := Option.isSome_iff_exists.mp hs
  unfold update_user
  rw [find_user_by_id_eq, hu]
  show (Except.ok (), ({ db with
      users := replaceFirst (fun v => v.id == i)
        (fun v => List.foldl applyField v []) db.users } : DBState)) =
    (Except.ok (), db)
  rw [replaceFirst_id_of (f := fun v => List.foldl applyField v [])
    (fun v => rfl) db.users]

/-- Claim C8: the field-update operation propagates `NoResultFound` when no
record has the id, rejects the first unrecognized field name with a
`ValueError` when the record exists, returns the store unchanged on
every error (all-or-nothing), and on success commits all given
assignments to the targeted record at once, leaving the rest of the
store untouched. -/
theorem update_user_contract (db : DBState) (i : Nat)
    (kw : List (String × FieldVal)) :
    ((∀ v ∈ db.users, v.id ≠ i) →
      update_user db i kw =
        (.error (.noResultFound "No user found that matches the given criteria"), db)) ∧
    (∀ e, (update_user db i kw).1 = .error e → (update_user db i kw).2 = db) ∧
    (∀ k fv, (k, fv) ∈ kw → column_names.contains k = false →
      (∃ v ∈ db.users, v.id = i) →
      ∃ k2, column_names.contains k2 = false ∧
        update_user db i kw =
          (.error (.valueError (k2 ++ " is not a valid attribute name")), db)) ∧
    (∀ pre u post, db.users = pre ++ u :: post →
      (∀ v ∈ pre, v.id ≠ i) → u.id = i →
      kw.find? (fun kv => !(column_names.contains kv.1)) = none →
      update_user db i kw =
        (.ok (), ⟨pre ++ kw.foldl applyField u :: post, db.nextId⟩)) := by
  refine ⟨?_, ?_, ?_, ?_⟩
  · intro h
    unfold update_user
    rw [find_user_by_id_none h]
  · intro e he
    unfold update_user at he ⊢
    cases hf : find_user_by db [("id", FieldVal.vNat i)] with
    | error e2 => rfl
    | ok u =>
        rw [hf] at he
        cases hk : kw.find? (fun kv => !(column_names.contains kv.1)) with
        | some kv => rfl
        | none =>
            rw [hk] at he
            exact absurd he (fun hh => Except.noConfusion hh)
  · intro k fv hmem hk hex
    have hs : (db.users.find? (fun v => v.id == i)).isSome := by
      rw [List.find?_isSome]
      obtain ⟨v, hv, hvi⟩ := hex
      exact ⟨v, hv, by simp [hvi]⟩
    obtain ⟨u, hu⟩ := Option.isSome_iff_exists.mp hs
    have hks : (kw.find? (fun kv => !(column_names.contains kv.1))).isSome := by
      rw [List.find?_isSome]
      refine ⟨(k, fv), hmem, ?_⟩
      show (!(column_names.contains k)) = true
      rw [hk]
      rfl
    obtain ⟨kv, hkv⟩ := Option.isSome_iff_exists.mp hks
    have hp0 := List.find?_some hkv
    have hp2 : (!(column_names.contains kv.1)) = true := hp0
    have hkv1 : column_names.contains kv.1 = false := by
      cases hcc : column_names.contains kv.1
      · rfl
      · rw [hcc] at hp2
        exact absurd hp2 (by decide)
    refine ⟨kv.1, hkv1, ?_⟩
    unfold update_user
    rw [find_user_by_id_eq, hu, hkv]
  · intro pre u post hsplit hpre hu hkw
    exact update_user_split pre post u kw hsplit hpre hu hkw

/-- Claim C7: the reset-token request on an unknown email surfaces a failure
(the bare `ValueError` standing for NotFound) rather than a benign
result; on a known email it draws a fresh token, persists it on exactly
that user's record, and returns that same token. -/
theorem request_reset_contract (st : AuthState) (email : String) :
    ((∀ v ∈ st.db.users, v.email ≠ email) →
      get_reset_password_token st email = (.error (.valueError ""), st)) ∧
    (∀ pre u post, st.db.users = pre ++ u :: post →
      (∀ v ∈ pre, v.email ≠ email ∧ v.id ≠ u.id) → u.email = email →
      get_reset_password_token st email =
        (.ok (_generate_uuid st.nonce),
         ⟨⟨pre ++ { u with reset_token := some (_generate_uuid st.nonce) } :: post,
           st.db.nextId⟩, st.nonce + 1⟩)) := by
  constructor
  · intro h
    unfold get_reset_password_token
    rw [find_user_by_email_none h]
  · intro pre u post hsplit hpre hu
    unfold get_reset_password_token
    rw [find_user_by_email_found pre post u hsplit
      (fun v hv => (hpre v hv).1) hu]
    dsimp only
    rw [update_user_split pre post u
      [("reset_token", FieldVal.vStr (_generate_uuid st.nonce))]
      hsplit (fun v hv => (hpre v hv).2) rfl rfl]
    rfl

theorem generate_uuid_ne_empty (n : Nat) : _generate_uuid n ≠ "" := by
  intro h
  have hl := congrArg String.length h
  rw [_generate_uuid, String.length_append] at hl
  simp at hl
  exact absurd hl.1 (by decide)

/-- Claim C4: for a stored user, creating a session returns a non-empty
identifier persisted on that user's record; looking the identifier up
returns that user; destroying the session by user id and looking the old
identifier up again returns absent. -/
theorem session_lifecycle (st : AuthState) (email : String)
    (pre post : List User) (u : User)
    (hsplit : st.db.users = pre ++ u :: post)
    (hpre : ∀ v ∈ pre, v.email ≠ email ∧ v.id ≠ u.id)
    (hu : u.email = email)
    (hfresh : ∀ v ∈ st.db.users, v.session_id ≠ some (_generate_uuid st.nonce)) :
    _generate_uuid st.nonce ≠ "" ∧
    ∃ st₁ st₂,
      create_session st email = (.ok (some (_generate_uuid st.nonce)), st₁) ∧
      get_user_from_session_id st₁ (some (_generate_uuid st.nonce)) =
        .ok (some { u with session_id := some (_generate_uuid st.nonce) }) ∧
      destroy_session st₁ u.id = (.ok (), st₂) ∧
      get_user_from_session_id st₂ (some (_generate_uuid st.nonce)) = .ok none := by
  have hprefresh : ∀ v ∈ pre, v.session_id ≠ some (_generate_uuid st.nonce) :=
    fun v hv => hfresh v (by rw [hsplit]; exact List.mem_append_left _ hv)
  have hpostfresh : ∀ v ∈ post, v.session_id ≠ some (_generate_uuid st.nonce) :=
    fun v hv => hfresh v
      (by rw [hsplit]; exact List.mem_append_right _ (List.mem_cons_of_mem u hv))
  refine ⟨generate_uuid_ne_empty st.nonce,
    ⟨⟨pre ++ { u with session_id := some (_generate_uuid st.nonce) } :: post,
       st.db.nextId⟩, st.nonce + 1⟩,
    ⟨⟨pre ++ { u with session_id := none } :: post,
       st.db.nextId⟩, st.nonce + 1⟩, ?_, ?_, ?_, ?_⟩
  · unfold create_session
    rw [find_user_by_email_found pre post u hsplit
      (fun v hv => (hpre v hv).1) hu]
    dsimp only
    rw [update_user_split pre post u
      [("session_id", FieldVal.vStr (_generate_uuid st.nonce))]
      hsplit (fun v hv => (hpre v hv).2) rfl rfl]
    rfl
  · unfold get_user_from_session_id
    dsimp only
    rw [find_user_by_session_found pre post
      { u with session_id := some (_generate_uuid st.nonce) }
      rfl hprefresh rfl]
  · unfold destroy_session
    rw [find_user_by_id_found pre post
      { u with session_id := some (_generate_uuid st.nonce) }
      rfl (fun v hv => (hpre v hv).2) rfl]
    dsimp only
    rw [update_user_split pre post
      { u with session_id := some (_generate_uuid st.nonce) }
      [("session_id", FieldVal.vOptStr none)]
      rfl (fun v hv => (hpre v hv).2) rfl rfl]
    rfl
  · unfold get_user_from_session_id
    dsimp only
    rw [find_user_by_session_none (s := _generate_uuid st.nonce)
      (fun v hv => by
        rcases List.mem_append.mp hv with h1 | h2
        · exact hprefresh v h1
        · rcases List.mem_cons.mp h2 with h3 | h4
          · rw [h3]
            simp
          · exact hpostfresh v h4)]

/-- Claim C2: for a user holding reset token t (with the token unique to that
user), a successful password update replaces the stored hash and clears
the token in the same single update; afterwards the login check accepts
the new password and rejects the old one, and a second update with the
same token fails with the NotFound-style `ValueError`. -/
theorem update_password_flow (st : AuthState) (t oldPw newPw : String)
    (pre post : List User) (u : User)
    (hsplit : st.db.users = pre ++ u :: post)
    (hpre : ∀ v ∈ pre,
      v.reset_token ≠ some t ∧ v.id ≠ u.id ∧ v.email ≠ u.email)
    (hpost : ∀ v ∈ post, v.reset_token ≠ some t)
    (htok : u.reset_token = some t)
    (hold : checkpw oldPw u.hashed_password = true)
    (hne : oldPw ≠ newPw) :
    ∃ st₁, update_password st (some t) (some newPw) = (.ok (), st₁) ∧
      st₁.db.users = pre ++
        { u with hashed_password := _hash_password newPw st.nonce,
                 reset_token := none } :: post ∧
      valid_login st₁ u.email newPw = .ok true ∧
      valid_login st₁ u.email oldPw = .ok false ∧
      (∀ p2, update_password st₁ (some t) (some p2) =
        (.error (.valueError ""), st₁)) := by
  refine ⟨⟨⟨pre ++
      { u with hashed_password := _hash_password newPw st.nonce,
               reset_token := none } :: post, st.db.nextId⟩, st.nonce + 1⟩,
    ?_, rfl, ?_, ?_, ?_⟩
  · have hred : update_password st (some t) (some newPw) =
        (match find_user_by st.db [("reset_token", FieldVal.vStr t)] with
         | .error (.noResultFound _) => (.error (.valueError ""), st)
         | .error e => (.error e, st)
         | .ok user =>
             match update_user st.db user.id
                 [("hashed_password", .vHash (_hash_password newPw st.nonce)),
                  ("reset_token", .vOptStr none)] with
             | (.error e, db2) => (.error e, ⟨db2, st.nonce + 1⟩)
             | (.ok _, db2) => (.ok (), ⟨db2, st.nonce + 1⟩)) := rfl
    rw [hred, find_user_by_reset_found pre post u hsplit
      (fun v hv => (hpre v hv).1) htok]
    dsimp only
    rw [update_user_split pre post u
      [("hashed_password", FieldVal.vHash (_hash_password newPw st.nonce)),
       ("reset_token", FieldVal.vOptStr none)]
      hsplit (fun v hv => (hpre v hv).2.1) rfl rfl]
    rfl
  · unfold valid_login
    dsimp only
    rw [find_user_by_email_found pre post
      { u with hashed_password := _hash_password newPw st.nonce,
               reset_token := none }
      rfl (fun v hv => (hpre v hv).2.2) rfl]
    simp [checkpw, _hash_password, hashpw]
  · unfold valid_login
    dsimp only
    rw [find_user_by_email_found pre post
      { u with hashed_password := _hash_password newPw st.nonce,
               reset_token := none }
      rfl (fun v hv => (hpre v hv).2.2) rfl]
    have hcpw : checkpw oldPw (_hash_password newPw st.nonce) = false := by
      simp [checkpw, _hash_password, hashpw]
      exact fun hh => hne hh.symm
    dsimp only
    rw [hcpw]
  · intro p2
    have hred2 : update_password
        (⟨⟨pre ++
            { u with hashed_password := _hash_password newPw st.nonce,
                     reset_token := none } :: post, st.db.nextId⟩,
          st.nonce + 1⟩ : AuthState) (some t) (some p2) =
        (match find_user_by
            (⟨pre ++
              { u with hashed_password := _hash_password newPw st.nonce,
                       reset_token := none } :: post, st.db.nextId⟩ : DBState)
            [("reset_token", FieldVal.vStr t)] with
         | .error (.noResultFound _) =>
             (.error (.valueError ""),
              (⟨⟨pre ++
                  { u with hashed_password := _hash_password newPw st.nonce,
                           reset_token := none } :: post, st.db.nextId⟩,
                st.nonce + 1⟩ : AuthState))
         | .error e =>
             (.error e,
              (⟨⟨pre ++
                  { u with hashed_password := _hash_password newPw st.nonce,
                           reset_token := none } :: post, st.db.nextId⟩,
                st.nonce + 1⟩ : AuthState))
         | .ok user =>
             match update_user
                 (⟨pre ++
                   { u with hashed_password := _hash_password newPw st.nonce,
                            reset_token := none } :: post, st.db.nextId⟩ : DBState)
                 user.id
                 [("hashed_password", .vHash (_hash_password p2 (st.nonce + 1))),
                  ("reset_token", .vOptStr none)] with
             | (.error e, db2) => (.error e, ⟨db2, st.nonce + 1 + 1⟩)
             | (.ok _, db2) => (.ok (), ⟨db2, st.nonce + 1 + 1⟩)) := rfl
    rw [hred2, find_user_by_reset_none (fun v hv => by
      rcases List.mem_append.mp hv with h1 | h2
      · exact (hpre v h1).1
      · rcases List.mem_cons.mp h2 with h3 | h4
        · rw [h3]
          simp
        · exact hpost v h4)]

theorem register_then_valid_login_w :
    ∃ u st₁, register_user authInit "a@x.com" "pw1" = (.ok u, st₁) ∧
      valid_login st₁ "a@x.com" "pw1" = .ok true :=
  register_then_valid_login authInit "a@x.com" "pw1" (by simp [authInit])

theorem register_duplicate_fails_w :
    register_user demoSt "a@x.com" "pw9" =
      (.error (.valueError ("User " ++ "a@x.com" ++ " already exists")), demoSt) :=
  register_duplicate_fails demoSt "a@x.com" "pw9"
    ⟨demoUser, by simp [demoSt], rfl⟩

theorem valid_login_total_and_exact_w :
    valid_login
      (⟨⟨[⟨1, "a@x.com", hashpw "pw1" 0, none, none⟩], 2⟩, 1⟩ : AuthState)
      "a@x.com" "pw2" = .ok ("pw1" == "pw2") :=
  (valid_login_total_and_exact authInit "a@x.com" "pw2").2.2 "pw1"
    ⟨1, "a@x.com", hashpw "pw1" 0, none, none⟩
    ⟨⟨[⟨1, "a@x.com", hashpw "pw1" 0, none, none⟩], 2⟩, 1⟩
    (by simp [authInit]) rfl

theorem update_password_guard_w :
    update_password authInit (some "zzz") (some "pw") =
      (.error (.valueError ""), authInit) :=
  (update_password_guard authInit "zzz" "pw" none).2.2 (by simp [authInit])

theorem find_user_by_rejects_bad_criteria_w :
    ∃ k2, column_names.contains k2 = false ∧
      find_user_by authInit.db [("bogusField", FieldVal.vNat 1)] =
        .error (.invalidRequestError (k2 ++ "is not a valid search criterion")) :=
  (find_user_by_rejects_bad_criteria authInit.db
      [("bogusField", FieldVal.vNat 1)] "bogusField" (FieldVal.vNat 1)).2
    (by simp) (by decide)

theorem request_reset_contract_w :
    get_reset_password_token demoSt "a@x.com" =
      (.ok (_generate_uuid demoSt.nonce),
       ⟨⟨[] ++ { demoUser with
                  reset_token := some (_generate_uuid demoSt.nonce) } :: [],
         demoSt.db.nextId⟩, demoSt.nonce + 1⟩) :=
  (request_reset_contract demoSt "a@x.com").2 [] demoUser []
    rfl (by simp) rfl

theorem update_user_contract_w :
    update_user demoSt.db 1 [("session_id", FieldVal.vStr "s1")] =
      (.ok (),
       ⟨[] ++ [("session_id", FieldVal.vStr "s1")].foldl applyField demoUser :: [],
        demoSt.db.nextId⟩) :=
  (update_user_contract demoSt.db 1
      [("session_id", FieldVal.vStr "s1")]).2.2.2 [] demoUser []
    rfl (by simp) rfl rfl

theorem update_user_empty_fields_noop_w :
    update_user demoSt.db 1 [] = (.ok (), demoSt.db) ∧
    find_user_by demoSt.db [] =
      .error (.invalidRequestError "No search criteria specified") :=
  update_user_empty_fields_noop demoSt.db 1 ⟨demoUser, by simp [demoSt], rfl⟩

theorem session_lifecycle_w :
    _generate_uuid demoSt.nonce ≠ "" ∧
    ∃ st₁ st₂,
      create_session demoSt "a@x.com" =
        (.ok (some (_generate_uuid demoSt.nonce)), st₁) ∧
      get_user_from_session_id st₁ (some (_generate_uuid demoSt.nonce)) =
        .ok (some { demoUser with
                     session_id := some (_generate_uuid demoSt.nonce) }) ∧
      destroy_session st₁ demoUser.id = (.ok (), st₂) ∧
      get_user_from_session_id st₂ (some (_generate_uuid demoSt.nonce)) =
        .ok none :=
  session_lifecycle demoSt "a@x.com" [] [] demoUser rfl (by simp) rfl
    (by simp [demoSt, demoUser])

theorem update_password_flow_w :
    ∃ st₁, update_password demoSt (some "tok") (some "pw2") = (.ok (), st₁) ∧
      st₁.db.users =
        [] ++ { demoUser with
                 hashed_password := _hash_password "pw2" demoSt.nonce,
                 reset_token := none } :: [] ∧
      valid_login st₁ demoUser.email "pw2" = .ok true ∧
      valid_login st₁ demoUser.email "pw1" = .ok false ∧
      (∀ p2, update_password st₁ (some "tok") (some p2) =
        (.error (.valueError ""), st₁)) :=
  update_password_flow demoSt "tok" "pw1" "pw2" [] [] demoUser rfl
    (by simp) (by simp) rfl rfl (by decide)
